import Mathlib

/-!
Shallow embedding of the game-state core of the design-pattern-showcase
repository: the Redux slice `src/lib/store/gameSlice.ts` (data model and all
reducers) and the example selector `src/lib/examples.ts`.

Conventions of the embedding:
* JavaScript numbers that hold timestamps, scores and counters are modelled
  as `Int` (all arithmetic in the source stays integral).
* `Date.now()` is modelled as an explicit `now : Int` parameter of the
  reducers that read the clock.
* JavaScript truthiness on `number | null` fields (`state.roundStartTime`)
  is modelled faithfully: `null` and `0` are falsy, every other number is
  truthy.
* Immer's mutating style is translated to pure state-passing; `find` followed
  by in-place mutation becomes an update of the first matching list element.
* The static JSON example catalogue lives outside the core, so the selector
  takes the full example list as an explicit argument.
-/

namespace GameCore

/-- `Category` from `src/lib/types.ts`. -/
inductive Category where
  | creational
  | structural
  | behavioral
  | antipattern
deriving DecidableEq

/-- `SolutionStep` from `src/lib/types.ts`. -/
structure SolutionStep where
  title : String
  description : String
  code : String
deriving DecidableEq

/-- `PatternExample` from `src/lib/types.ts`. -/
structure PatternExample where
  id : String
  title : String
  category : Category
  code : String
  solutionPatterns : List String
  solutionExplanation : String
  solutionSteps : List SolutionStep
  solutionAdvantages : List String
deriving DecidableEq

/-- `Team` from `src/lib/types.ts`. -/
structure Team where
  id : String
  name : String
  score : Int
  color : String
deriving DecidableEq

/-- `AnswerHistory` from `src/lib/store/gameSlice.ts`. -/
structure AnswerHistory where
  roundNumber : Int
  «example» : PatternExample
  winnerTeam : Option Team
  timestamp : Int
  timeElapsed : Int
deriving DecidableEq

/-- The value space of `selectedCategory : Category | "all" | null`
(the `Option` wrapper supplies the `null` case). -/
inductive CategoryFilter where
  | cat (c : Category)
  | all
deriving DecidableEq

/-- `GameState` from `src/lib/store/gameSlice.ts`.
`selectedPatternCount` holds `1 | 2 | 3` in the TypeScript type; the
reducers only store it, so it is carried as an `Int`. -/
structure GameState where
  teams : List Team
  roundNumber : Int
  usedExampleIds : List String
  currentExample : Option PatternExample
  solutionRevealed : Bool
  selectedCategory : Option CategoryFilter
  selectedPatternCount : Option Int
  answerHistory : List AnswerHistory
  roundStartTime : Option Int
  isPaused : Bool
deriving DecidableEq

/-- `initialState` from `src/lib/store/gameSlice.ts`. -/
def initialState : GameState where
  teams := []
  roundNumber := 1
  usedExampleIds := []
  currentExample := none
  solutionRevealed := false
  selectedCategory := none
  selectedPatternCount := none
  answerHistory := []
  roundStartTime := none
  isPaused := false

/-- Update the first element of a team list satisfying `p` (Immer's
`find`-then-mutate idiom). -/
def updateFirst (p : Team → Bool) (f : Team → Team) : List Team → List Team
  | [] => []
  | t :: ts => if p t then f t :: ts else t :: updateFirst p f ts

/-- Reducer `setTeams`. -/
def setTeams (s : GameState) (teams : List Team) : GameState :=
  { s with teams := teams }

/-- Reducer `updateTeamScore`: adds `points` to the score of the first team
whose id matches (no-op when no team matches). -/
def updateTeamScore (s : GameState) (teamId : String) (points : Int) : GameState :=
  { s with
    teams :=
      updateFirst (fun t => t.id == teamId)
        (fun t => { t with score := t.score + points }) s.teams }

/-- Reducer `setCurrentExample`. The payload object is always truthy, so the
`if (action.payload)` branch coincides with the `some` case. -/
def setCurrentExample (s : GameState) (payload : Option PatternExample) (now : Int) :
    GameState :=
  match payload with
  | some ex =>
      { s with
        currentExample := some ex
        usedExampleIds :=
          if s.usedExampleIds.contains ex.id then s.usedExampleIds
          else s.usedExampleIds ++ [ex.id]
        roundStartTime := some now
        solutionRevealed := false
        isPaused := false }
  | none => { s with currentExample := none, roundStartTime := none }

/-- Reducer `setSelectedCategory`. -/
def setSelectedCategory (s : GameState) (c : Option CategoryFilter) : GameState :=
  { s with selectedCategory := c }

/-- Reducer `setSelectedPatternCount`. -/
def setSelectedPatternCount (s : GameState) (n : Option Int) : GameState :=
  { s with selectedPatternCount := n }

/-- Reducer `revealSolution`. -/
def revealSolution (s : GameState) : GameState :=
  { s with solutionRevealed := true }

/-- Reducer `awardPoint`. The guard `if (team && state.currentExample &&
state.roundStartTime)` requires the team lookup to succeed, a non-null
current example, and a truthy (non-null and nonzero) round start time.
`Math.floor((Date.now() - state.roundStartTime) / 1000)` is floor division
of the integral difference by 1000, i.e. `Int.fdiv`. The history entry's
`winnerTeam` is the spread copy `{ ...team }` of the post-increment team. -/
def awardPoint (s : GameState) (teamId : String) (now : Int) : GameState :=
  match s.teams.find? (fun t => t.id == teamId), s.currentExample, s.roundStartTime with
  | some team, some ex, some rst =>
      if rst = 0 then s
      else
        { s with
          teams :=
            updateFirst (fun t => t.id == teamId)
              (fun t => { t with score := t.score + 1 }) s.teams
          answerHistory := s.answerHistory ++
            [{ roundNumber := s.roundNumber
               «example» := ex
               winnerTeam := some { team with score := team.score + 1 }
               timestamp := now
               timeElapsed := (now - rst).fdiv 1000 }] }
  | _, _, _ => s

/-- Reducer `nextRound`. -/
def nextRound (s : GameState) : GameState :=
  { s with
    roundNumber := s.roundNumber + 1
    currentExample := none
    selectedCategory := none
    selectedPatternCount := none
    solutionRevealed := false
    roundStartTime := none
    isPaused := false }

/-- Reducer `togglePause`. -/
def togglePause (s : GameState) : GameState :=
  { s with isPaused := !s.isPaused }

/-- `Partial<GameState>`: each field is optionally present. -/
structure PartialGameState where
  teams : Option (List Team) := none
  roundNumber : Option Int := none
  usedExampleIds : Option (List String) := none
  currentExample : Option (Option PatternExample) := none
  solutionRevealed : Option Bool := none
  selectedCategory : Option (Option CategoryFilter) := none
  selectedPatternCount : Option (Option Int) := none
  answerHistory : Option (List AnswerHistory) := none
  roundStartTime : Option (Option Int) := none
  isPaused : Option Bool := none
deriving DecidableEq

/-- Reducer `hydrate`: the shallow merge `{ ...state, ...action.payload }` —
every field present in the payload overrides, every other field is kept. -/
def hydrate (s : GameState) (p : PartialGameState) : GameState where
  teams := p.teams.getD s.teams
  roundNumber := p.roundNumber.getD s.roundNumber
  usedExampleIds := p.usedExampleIds.getD s.usedExampleIds
  currentExample := p.currentExample.getD s.currentExample
  solutionRevealed := p.solutionRevealed.getD s.solutionRevealed
  selectedCategory := p.selectedCategory.getD s.selectedCategory
  selectedPatternCount := p.selectedPatternCount.getD s.selectedPatternCount
  answerHistory := p.answerHistory.getD s.answerHistory
  roundStartTime := p.roundStartTime.getD s.roundStartTime
  isPaused := p.isPaused.getD s.isPaused

/-- A full copy of a state as a hydration payload (every field present). -/
def toPartial (s : GameState) : PartialGameState where
  teams := some s.teams
  roundNumber := some s.roundNumber
  usedExampleIds := some s.usedExampleIds
  currentExample := some s.currentExample
  solutionRevealed := some s.solutionRevealed
  selectedCategory := some s.selectedCategory
  selectedPatternCount := some s.selectedPatternCount
  answerHistory := some s.answerHistory
  roundStartTime := some s.roundStartTime
  isPaused := some s.isPaused

/-- The action space of the slice: one constructor per reducer, carrying the
payload (and the clock reading for reducers that call `Date.now()`). -/
inductive Action where
  | setTeams (teams : List Team)
  | updateTeamScore (teamId : String) (points : Int)
  | setCurrentExample (payload : Option PatternExample) (now : Int)
  | setSelectedCategory (c : Option CategoryFilter)
  | setSelectedPatternCount (n : Option Int)
  | revealSolution
  | awardPoint (teamId : String) (now : Int)
  | nextRound
  | togglePause
  | resetGame
  | hydrate (p : PartialGameState)

/-- One transition of the state machine: dispatch an action to its reducer
(`resetGame` returns `initialState` unconditionally). -/
def step (s : GameState) : Action → GameState
  | .setTeams ts => setTeams s ts
  | .updateTeamScore teamId points => updateTeamScore s teamId points
  | .setCurrentExample payload now => setCurrentExample s payload now
  | .setSelectedCategory c => setSelectedCategory s c
  | .setSelectedPatternCount n => setSelectedPatternCount s n
  | .revealSolution => revealSolution s
  | .awardPoint teamId now => awardPoint s teamId now
  | .nextRound => nextRound s
  | .togglePause => togglePause s
  | .resetGame => initialState
  | .hydrate p => hydrate s p

/-- States reachable from `initialState` using only actions allowed by `P`. -/
inductive ReachableFrom (P : Action → Prop) : GameState → Prop where
  | init : ReachableFrom P initialState
  | next {s : GameState} {a : Action} (hs : ReachableFrom P s) (ha : P a) :
      ReachableFrom P (step s a)

/-- States reachable from `initialState` by any sequence of actions. -/
def Reachable : GameState → Prop := ReachableFrom fun _ => True

/-- Every action except `hydrate`. -/
def NonHydrate : Action → Prop
  | .hydrate _ => False
  | _ => True

/-- Actions that never lower an existing team's score: everything except the
wholesale team replacements (`setTeams`, `hydrate`) and `updateTeamScore`
with negative points. -/
def ScorePreserving : Action → Prop
  | .setTeams _ => False
  | .hydrate _ => False
  | .updateTeamScore _ points => 0 ≤ points
  | _ => True

/-! The example selector, `src/lib/examples.ts`. The JSON catalogue is data
external to the core, so `allExamples` (the result of `getAllExamples()`) is
an explicit parameter. -/

/-- `getExamplesByPatternCount` from `src/lib/examples.ts`. -/
def getExamplesByPatternCount (allExamples : List PatternExample) (count : Nat) :
    List PatternExample :=
  allExamples.filter fun e => decide (e.solutionPatterns.length = count)

/-- `getExamplesByCategoryAndCount` from `src/lib/examples.ts`. -/
def getExamplesByCategoryAndCount (allExamples : List PatternExample)
    (category : Category) (count : Nat) : List PatternExample :=
  allExamples.filter fun e =>
    decide (e.category = category) && decide (e.solutionPatterns.length = count)

/-- `getRandomExampleByPatternCount` from `src/lib/examples.ts`.
`randomIndex` models the draw `Math.floor(Math.random() *
availableExamples.length)`, which always lies in `[0, length)` when the list
is non-empty; an arbitrary natural number is reduced into that range. -/
def getRandomExampleByPatternCount (allExamples : List PatternExample) (count : Nat)
    (category : Option Category) (usedIds : List String) (randomIndex : Nat) :
    Option PatternExample :=
  let examples : List PatternExample :=
    match category with
    | some c => getExamplesByCategoryAndCount allExamples c count
    | none => getExamplesByPatternCount allExamples count
  let availableExamples : List PatternExample :=
    examples.filter fun e => !usedIds.contains e.id
  if h : availableExamples.length = 0 then none
  else
    some (availableExamples.get
      ⟨randomIndex % availableExamples.length,
       Nat.mod_lt _ (Nat.pos_of_ne_zero h)⟩)

/-! Concrete fixtures used by witnesses and counterexamples. -/

/-- A concrete single-pattern creational example. -/
def ex0 : PatternExample where
  id := "creational-01"
  title := "Pizzeria online"
  category := .creational
  code := "class Pizza {}"
  solutionPatterns := ["Factory Method"]
  solutionExplanation := "usa una factory"
  solutionSteps := []
  solutionAdvantages := []

/-- A concrete team with score 0. -/
def teamA : Team where
  id := "t1"
  name := "Alpha"
  score := 0
  color := "red"

/-- A state in an active round: one team, a current example, and the round
started at time 1000. -/
def activeState : GameState :=
  { initialState with
    teams := [teamA]
    currentExample := some ex0
    roundStartTime := some 1000 }

/-- Like `activeState`, but the round started exactly at timestamp 0 — the
value `awardPoint`'s truthiness guard treats as absent. -/
def zeroStartState : GameState :=
  { initialState with
    teams := [teamA]
    currentExample := some ex0
    roundStartTime := some 0 }

/-- Like `activeState`, but the round started at timestamp 2000, ahead of
the clock readings used against it. -/
def lateStartState : GameState :=
  { initialState with
    teams := [teamA]
    currentExample := some ex0
    roundStartTime := some 2000 }

/-- The reachable state obtained by registering one team with score 1. -/
def oneTeamState : GameState :=
  step initialState (.setTeams [{ teamA with score := 1 }])

/-- The state obtained by hydrating the initial state with a partial payload
that names `currentExample` but not `roundStartTime`. -/
def hydratedExampleState : GameState :=
  step initialState (.hydrate { currentExample := some (some ex0) })

/-- The state obtained by revealing the solution and then clearing the
current example. -/
def revealedNoExampleState : GameState :=
  step (step initialState .revealSolution) (.setCurrentExample none 0)

/-! Helper lemmas. -/

theorem mem_updateFirst {p : Team → Bool} {f : Team → Team} {l : List Team} {t' : Team}
    (h : t' ∈ updateFirst p f l) :
    t' ∈ l ∨ ∃ t ∈ l, p t = true ∧ t' = f t := by
  induction l with
  | nil => simp [updateFirst] at h
  | cons t ts ih =>
    by_cases hp : p t
    · rw [updateFirst, if_pos hp] at h
      rcases List.mem_cons.mp h with h | h
      · exact Or.inr ⟨t, List.mem_cons_self .., hp, h⟩
      · exact Or.inl (List.mem_cons_of_mem _ h)
    · rw [updateFirst, if_neg hp] at h
      rcases List.mem_cons.mp h with h | h
      · exact Or.inl (h ▸ List.mem_cons_self ..)
      · rcases ih h with h | ⟨u, hu, hpu, hfu⟩
        · exact Or.inl (List.mem_cons_of_mem _ h)
        · exact Or.inr ⟨u, List.mem_cons_of_mem _ hu, hpu, hfu⟩

theorem find?_updateFirst {p : Team → Bool} {f : Team → Team}
    (hf : ∀ t, p (f t) = p t) {l : List Team} {a : Team}
    (h : l.find? p = some a) :
    (updateFirst p f l).find? p = some (f a) := by
  induction l with
  | nil => simp [List.find?] at h
  | cons t ts ih =>
    by_cases hp : p t
    · rw [List.find?_cons_of_pos _ hp] at h
      obtain rfl : t = a := Option.some.inj h
      rw [updateFirst, if_pos hp, List.find?_cons_of_pos _ ((hf _).trans hp)]
    · rw [List.find?_cons_of_neg _ hp] at h
      rw [updateFirst, if_neg hp, List.find?_cons_of_neg _ hp]
      exact ih h

theorem awardPoint_of_active {s : GameState} {teamId : String} {team : Team}
    {ex : PatternExample} {rst : Int}
    (hteam : s.teams.find? (fun t => t.id == teamId) = some team)
    (hex : s.currentExample = some ex) (hrst : s.roundStartTime = some rst)
    (hnz : rst ≠ 0) (now : Int) :
    awardPoint s teamId now =
      { s with
        teams :=
          updateFirst (fun t => t.id == teamId)
            (fun t => { t with score := t.score + 1 }) s.teams
        answerHistory := s.answerHistory ++
          [{ roundNumber := s.roundNumber
             «example» := ex
             winnerTeam := some { team with score := team.score + 1 }
             timestamp := now
             timeElapsed := (now - rst).fdiv 1000 }] } := by
  unfold awardPoint
  rw [hteam, hex, hrst]
  simp [hnz]

theorem awardPoint_cases (s : GameState) (teamId : String) (now : Int) :
    awardPoint s teamId now = s ∨
      ∃ team ex rst,
        s.teams.find? (fun t => t.id == teamId) = some team ∧
          s.currentExample = some ex ∧ s.roundStartTime = some rst ∧ rst ≠ 0 := by
  rcases hf : s.teams.find? (fun t => t.id == teamId) with _ | team
  · left; unfold awardPoint; rw [hf]
  · rcases hc : s.currentExample with _ | ex
    · left; unfold awardPoint; rw [hf, hc]
    · rcases hr : s.roundStartTime with _ | rst
      · left; unfold awardPoint; rw [hf, hc, hr]
      · by_cases hz : rst = 0
        · left; unfold awardPoint; rw [hf, hc, hr]; simp [hz]
        · exact Or.inr ⟨team, ex, rst, hf, rfl, rfl, hz⟩

theorem awardPoint_currentExample (s : GameState) (teamId : String) (now : Int) :
    (awardPoint s teamId now).currentExample = s.currentExample := by
  rcases awardPoint_cases s teamId now with h | ⟨team, ex, rst, hteam, hex, hrst, hnz⟩
  · rw [h]
  · rw [awardPoint_of_active hteam hex hrst hnz now]

theorem awardPoint_roundStartTime (s : GameState) (teamId : String) (now : Int) :
    (awardPoint s teamId now).roundStartTime = s.roundStartTime := by
  rcases awardPoint_cases s teamId now with h | ⟨team, ex, rst, hteam, hex, hrst, hnz⟩
  · rw [h]
  · rw [awardPoint_of_active hteam hex hrst hnz now]

theorem awardPoint_teams_cases (s : GameState) (teamId : String) (now : Int) :
    (awardPoint s teamId now).teams = s.teams ∨
      (awardPoint s teamId now).teams =
        updateFirst (fun t => t.id == teamId)
          (fun t => { t with score := t.score + 1 }) s.teams := by
  rcases awardPoint_cases s teamId now with h | ⟨team, ex, rst, hteam, hex, hrst, hnz⟩
  · left; rw [h]
  · right; rw [awardPoint_of_active hteam hex hrst hnz now]

/-- C1: whenever `currentExample` is none or `roundStartTime` is none,
`awardPoint` is a silent no-op — the resulting state equals the pre-call
state (no score change, no history append, no other field modified). -/
theorem awardPoint_noop_without_context (s : GameState) (teamId : String) (now : Int)
    (h : s.currentExample = none ∨ s.roundStartTime = none) :
    awardPoint s teamId now = s := by
  rcases awardPoint_cases s teamId now with hn | ⟨team, ex, rst, _, hex, hrst, _⟩
  · exact hn
  · rcases h with h | h
    · rw [h] at hex; exact absurd hex (by simp)
    · rw [h] at hrst; exact absurd hrst (by simp)

/-- Witness for C1: on the initial state (which has no current example),
`awardPoint` leaves the state unchanged. -/
theorem awardPoint_noop_without_context_witness :
    (initialState.currentExample = none ∨ initialState.roundStartTime = none) ∧
      awardPoint initialState "t1" 42 = initialState :=
  ⟨Or.inl rfl, awardPoint_noop_without_context initialState "t1" 42 (Or.inl rfl)⟩

/-- C4: `setCurrentExample (some e)` appends `e.id` to `usedExampleIds` only
when it is absent (so an immediate repeat inserts nothing), sets
`roundStartTime` to the current time, sets `solutionRevealed` and `isPaused`
to false; `setCurrentExample none` clears `currentExample` and
`roundStartTime`. -/
theorem setCurrentExample_spec (s : GameState) (e : PatternExample) (now now2 : Int) :
    ((setCurrentExample s (some e) now).usedExampleIds =
        if s.usedExampleIds.contains e.id then s.usedExampleIds
        else s.usedExampleIds ++ [e.id])
    ∧ (setCurrentExample s (some e) now).currentExample = some e
    ∧ (setCurrentExample s (some e) now).roundStartTime = some now
    ∧ (setCurrentExample s (some e) now).solutionRevealed = false
    ∧ (setCurrentExample s (some e) now).isPaused = false
    ∧ (setCurrentExample (setCurrentExample s (some e) now) (some e) now2).usedExampleIds
        = (setCurrentExample s (some e) now).usedExampleIds
    ∧ (setCurrentExample s none now).currentExample = none
    ∧ (setCurrentExample s none now).roundStartTime = none := by
  refine ⟨rfl, rfl, rfl, rfl, rfl, ?_, rfl, rfl⟩
  have key : ∀ u : GameState, u.usedExampleIds.contains e.id = true →
      (setCurrentExample u (some e) now2).usedExampleIds = u.usedExampleIds := by
    intro u hu
    simp only [setCurrentExample]
    rw [if_pos hu]
  apply key
  show (if s.usedExampleIds.contains e.id then s.usedExampleIds
      else s.usedExampleIds ++ [e.id]).contains e.id = true
  by_cases hc : s.usedExampleIds.contains e.id
  · rw [if_pos hc]; exact hc
  · rw [if_neg hc]; simp

/-- C8: `hydrate` is a shallow merge — every field named in the partial
payload takes the payload's value, every field not named keeps the prior
state's value, and hydrating a state with a full copy of itself leaves it
unchanged. -/
theorem hydrate_shallow_merge (s : GameState) (p : PartialGameState) :
    (hydrate s p).teams = p.teams.getD s.teams
    ∧ (hydrate s p).roundNumber = p.roundNumber.getD s.roundNumber
    ∧ (hydrate s p).usedExampleIds = p.usedExampleIds.getD s.usedExampleIds
    ∧ (hydrate s p).currentExample = p.currentExample.getD s.currentExample
    ∧ (hydrate s p).solutionRevealed = p.solutionRevealed.getD s.solutionRevealed
    ∧ (hydrate s p).selectedCategory = p.selectedCategory.getD s.selectedCategory
    ∧ (hydrate s p).selectedPatternCount =
        p.selectedPatternCount.getD s.selectedPatternCount
    ∧ (hydrate s p).answerHistory = p.answerHistory.getD s.answerHistory
    ∧ (hydrate s p).roundStartTime = p.roundStartTime.getD s.roundStartTime
    ∧ (hydrate s p).isPaused = p.isPaused.getD s.isPaused
    ∧ hydrate s (toPartial s) = s :=
  ⟨rfl, rfl, rfl, rfl, rfl, rfl, rfl, rfl, rfl, rfl, rfl⟩

/-- C9: `awardPoint` with a team id that matches no team is a silent no-op,
even when a current example and a round start time are present. -/
theorem awardPoint_noop_unknown_team (s : GameState) (teamId : String) (now : Int)
    (h : ∀ t ∈ s.teams, t.id ≠ teamId) :
    awardPoint s teamId now = s := by
  have hf : s.teams.find? (fun t => t.id == teamId) = none := by
    rw [List.find?_eq_none]
    intro t ht
    simpa using h t ht
  rcases awardPoint_cases s teamId now with hn | ⟨team, ex, rst, hteam, _, _, _⟩
  · exact hn
  · rw [hf] at hteam; exact absurd hteam (by simp)

/-- Witness for C9: awarding to the unknown id "nobody" in a state that has
a team, a current example and a running round changes nothing. -/
theorem awardPoint_noop_unknown_team_witness :
    (∀ t ∈ activeState.teams, t.id ≠ "nobody") ∧
      awardPoint activeState "nobody" 9999 = activeState :=
  ⟨by decide, awardPoint_noop_unknown_team activeState "nobody" 9999 (by decide)⟩

/-- C2 (counterexample): a state in which a team matches, `currentExample`
is present and `roundStartTime` is present (with value 0) on which
`awardPoint` nevertheless changes nothing — the guard tests JavaScript
truthiness, and the number 0 is falsy, so no score is incremented and no
history record is appended. -/
theorem awardPoint_zero_start_noop :
    zeroStartState.currentExample.isSome = true
    ∧ zeroStartState.roundStartTime = some 0
    ∧ (∃ t ∈ zeroStartState.teams, t.id = "t1")
    ∧ awardPoint zeroStartState "t1" 5000 = zeroStartState := by
  refine ⟨rfl, rfl, ⟨teamA, by decide, rfl⟩, ?_⟩
  decide

/-- C2 (amended): when a team matches, `currentExample` is present and
`roundStartTime` is present and nonzero (truthy), each `awardPoint` call
increments that team's score by exactly 1 and appends exactly one history
record whose `winnerTeam` is the snapshot of the post-increment team; a
later score change does not alter the recorded snapshot, and two
consecutive calls in the same round increment twice and append two records
(no deduplication). -/
theorem awardPoint_awards_and_stacks (s : GameState) (teamId : String)
    (now now2 points : Int) (team : Team) (ex : PatternExample) (rst : Int)
    (hteam : s.teams.find? (fun t => t.id == teamId) = some team)
    (hex : s.currentExample = some ex)
    (hrst : s.roundStartTime = some rst) (hnz : rst ≠ 0) :
    ((awardPoint s teamId now).teams.find? (fun t => t.id == teamId) =
        some { team with score := team.score + 1 })
    ∧ (awardPoint s teamId now).answerHistory =
        s.answerHistory ++
          [{ roundNumber := s.roundNumber
             «example» := ex
             winnerTeam := some { team with score := team.score + 1 }
             timestamp := now
             timeElapsed := (now - rst).fdiv 1000 }]
    ∧ (updateTeamScore (awardPoint s teamId now) teamId points).answerHistory =
        (awardPoint s teamId now).answerHistory
    ∧ (awardPoint (awardPoint s teamId now) teamId now2).teams.find?
        (fun t => t.id == teamId) = some { team with score := team.score + 1 + 1 }
    ∧ (awardPoint (awardPoint s teamId now) teamId now2).answerHistory.length =
        s.answerHistory.length + 2 := by
  have hfid : ∀ t : Team,
      ((fun t : Team => t.id == teamId) ({ t with score := t.score + 1 })) =
        ((fun t : Team => t.id == teamId) t) := fun _ => rfl
  have h1 := awardPoint_of_active hteam hex hrst hnz now
  have hfind1 : (awardPoint s teamId now).teams.find? (fun t => t.id == teamId) =
      some { team with score := team.score + 1 } := by
    rw [h1]
    exact find?_updateFirst hfid hteam
  have hex1 : (awardPoint s teamId now).currentExample = some ex := by
    rw [h1]; exact hex
  have hrst1 : (awardPoint s teamId now).roundStartTime = some rst := by
    rw [h1]; exact hrst
  have h2 := awardPoint_of_active hfind1 hex1 hrst1 hnz now2
  refine ⟨hfind1, by rw [h1], rfl, ?_, ?_⟩
  · rw [h2]
    exact find?_updateFirst hfid hfind1
  · rw [h2, h1]
    simp

/-- Witness for C2 (amended): in `activeState` (team "t1" at score 0, round
started at time 1000), two awards at times 3000 and 4000 leave two history
records and the team at score 2. -/
theorem awardPoint_awards_and_stacks_witness :
    activeState.teams.find? (fun t => t.id == "t1") = some teamA
    ∧ activeState.roundStartTime = some 1000
    ∧ (1000 : Int) ≠ 0
    ∧ (awardPoint (awardPoint activeState "t1" 3000) "t1" 4000).teams.find?
        (fun t => t.id == "t1") = some { teamA with score := teamA.score + 1 + 1 }
    ∧ (awardPoint (awardPoint activeState "t1" 3000) "t1" 4000).answerHistory.length =
        activeState.answerHistory.length + 2 := by
  have h := awardPoint_awards_and_stacks activeState "t1" 3000 4000 7 teamA ex0 1000
    (by decide) rfl rfl (by decide)
  exact ⟨by decide, rfl, by decide, h.2.2.2.1, h.2.2.2.2⟩

/-- C5 (counterexample): with the round started at timestamp 2000 and the
clock read at 0, the recorded `timeElapsed` is −2 — negative, not clamped to
a minimum of 0 as the claim states. -/
theorem awardPoint_negative_elapsed :
    (awardPoint lateStartState "t1" 0).answerHistory.map AnswerHistory.timeElapsed
        = [(-2 : Int)]
    ∧ ((-2 : Int) < 0) := by
  refine ⟨?_, by decide⟩
  decide

/-- C5 (amended): under `awardPoint`'s effective precondition (matching
team, present `currentExample`, present and nonzero `roundStartTime`), the
appended history record's `timeElapsed` equals
`⌊(now − roundStartTime) / 1000⌋` — the exact floor of the second count,
with no clamping to 0. -/
theorem awardPoint_timeElapsed_floor (s : GameState) (teamId : String) (now : Int)
    (team : Team) (ex : PatternExample) (rst : Int)
    (hteam : s.teams.find? (fun t => t.id == teamId) = some team)
    (hex : s.currentExample = some ex)
    (hrst : s.roundStartTime = some rst) (hnz : rst ≠ 0) :
    (awardPoint s teamId now).answerHistory.map AnswerHistory.timeElapsed =
      s.answerHistory.map AnswerHistory.timeElapsed ++
        [⌊((now : ℚ) - (rst : ℚ)) / (1000 : ℚ)⌋] := by
  rw [awardPoint_of_active hteam hex hrst hnz now]
  simp only [List.map_append, List.map_cons, List.map_nil]
  have : ((now : ℚ) - (rst : ℚ)) = ((now - rst : ℤ) : ℚ) := by push_cast; ring
  rw [this, Int.fdiv_eq_ediv _ (by norm_num),
    show ((1000 : ℚ)) = ((1000 : ℕ) : ℚ) by norm_num,
    Rat.floor_intCast_div_natCast]
  rfl

/-- Witness for C5 (amended): in `activeState` (round started at 1000), an
award at time 3500 records `⌊2500 / 1000⌋ = 2` elapsed seconds. -/
theorem awardPoint_timeElapsed_floor_witness :
    activeState.roundStartTime = some 1000
    ∧ (1000 : Int) ≠ 0
    ∧ (awardPoint activeState "t1" 3500).answerHistory.map AnswerHistory.timeElapsed =
        activeState.answerHistory.map AnswerHistory.timeElapsed ++
          [⌊((3500 : ℚ) - ((1000 : Int) : ℚ)) / (1000 : ℚ)⌋] :=
  ⟨rfl, by decide,
    awardPoint_timeElapsed_floor activeState "t1" 3500 teamA ex0 1000
      (by decide) rfl rfl (by decide)⟩

/-- C3: the selector never returns an example whose id is in `usedIds`,
never returns one whose `solutionPatterns` length differs from the requested
count or (when a category is given) whose category differs, and returns none
exactly when no example passes the count/category filter and the exclusion.
The claim holds for every catalogue, every count and every random draw. -/
theorem getRandomExample_spec (allExamples : List PatternExample) (count : Nat)
    (category : Option Category) (usedIds : List String) (randomIndex : Nat) :
    (∀ e,
      getRandomExampleByPatternCount allExamples count category usedIds randomIndex
          = some e →
        usedIds.contains e.id = false
        ∧ e.solutionPatterns.length = count
        ∧ ∀ c, category = some c → e.category = c)
    ∧ (getRandomExampleByPatternCount allExamples count category usedIds randomIndex
          = none ↔
        ((match category with
          | some c => getExamplesByCategoryAndCount allExamples c count
          | none => getExamplesByPatternCount allExamples count).filter
            fun e : PatternExample => !usedIds.contains e.id) = []) := by
  constructor
  · intro e he
    simp only [getRandomExampleByPatternCount] at he
    split at he
    · exact absurd he (by simp)
    · have hmem : e ∈ (match category with
          | some c => getExamplesByCategoryAndCount allExamples c count
          | none => getExamplesByPatternCount allExamples count).filter
            (fun e : PatternExample => !usedIds.contains e.id) := by
        rw [← Option.some.inj he]
        exact List.get_mem ..
      have h1 := List.mem_filter.mp hmem
      refine ⟨by simpa using h1.2, ?_, ?_⟩
      · rcases category with _ | c
        · have := List.mem_filter.mp h1.1
          simpa using this.2
        · have := List.mem_filter.mp h1.1
          simp only [decide_eq_true_eq, Bool.and_eq_true] at this
          exact this.2.2
      · intro c hc
        subst hc
        have := List.mem_filter.mp h1.1
        simp only [decide_eq_true_eq, Bool.and_eq_true] at this
        exact this.2.1
  · simp only [getRandomExampleByPatternCount]
    split
    · rename_i h
      simp only [true_iff]
      exact List.length_eq_zero.mp h
    · rename_i h
      constructor
      · intro hc; exact absurd hc (by simp)
      · intro hc
        exact absurd (by rw [hc]; rfl) h

/-- Witness for C3: on a one-example catalogue with nothing used, the
selector picks that example and the guarantees hold for it. -/
theorem getRandomExample_spec_witness :
    getRandomExampleByPatternCount [ex0] 1 none [] 0 = some ex0
    ∧ List.contains ([] : List String) ex0.id = false
    ∧ ex0.solutionPatterns.length = 1
    ∧ ∀ c, (none : Option Category) = some c → ex0.category = c := by
  have hsel : getRandomExampleByPatternCount [ex0] 1 none [] 0 = some ex0 := by decide
  exact ⟨hsel, (getRandomExample_spec [ex0] 1 none [] 0).1 ex0 hsel⟩

/-- C6 (counterexample): scores are not monotone over every transition —
from a reachable state whose only team has score 1, the transition
`updateTeamScore "t1" (-1)` lowers that team's score to 0. -/
theorem updateTeamScore_can_decrease :
    Reachable oneTeamState
    ∧ oneTeamState.teams.map Team.score = [1]
    ∧ (step oneTeamState (.updateTeamScore "t1" (-1))).teams.map Team.score = [0] := by
  refine ⟨ReachableFrom.next ReachableFrom.init trivial, rfl, ?_⟩
  decide

/-- C6 (amended): every transition that modifies team scores in place —
`awardPoint`, and `updateTeamScore` with nonnegative points — leaves each
team's score non-decreasing, and so does every transition that does not
touch teams; only `setTeams` and `hydrate` (which replace the team list
wholesale) and `updateTeamScore` with negative points can lower a score. -/
theorem step_scores_nondecreasing (s : GameState) (a : Action)
    (ha : ScorePreserving a) :
    ∀ t' ∈ (step s a).teams, ∃ t ∈ s.teams, t.id = t'.id ∧ t.score ≤ t'.score := by
  cases a with
  | setTeams ts => exact False.elim ha
  | hydrate p => exact False.elim ha
  | updateTeamScore teamId points =>
      intro t' ht'
      have hp : (0 : Int) ≤ points := ha
      have ht'' : t' ∈ updateFirst (fun t => t.id == teamId)
          (fun t => { t with score := t.score + points }) s.teams := ht'
      rcases mem_updateFirst ht'' with h | ⟨t, htl, _, rfl⟩
      · exact ⟨t', h, rfl, le_refl _⟩
      · exact ⟨t, htl, rfl, by show t.score ≤ t.score + points; omega⟩
  | awardPoint teamId now =>
      intro t' ht'
      simp only [step] at ht'
      rcases awardPoint_teams_cases s teamId now with h | h
      · rw [h] at ht'
        exact ⟨t', ht', rfl, le_refl _⟩
      · rw [h] at ht'
        rcases mem_updateFirst ht' with hm | ⟨t, htl, _, rfl⟩
        · exact ⟨t', hm, rfl, le_refl _⟩
        · exact ⟨t, htl, rfl, by show t.score ≤ t.score + 1; omega⟩
  | setCurrentExample payload now =>
      intro t' ht'
      rcases payload with _ | e <;> exact ⟨t', ht', rfl, le_refl _⟩
  | setSelectedCategory c => exact fun t' ht' => ⟨t', ht', rfl, le_refl _⟩
  | setSelectedPatternCount n => exact fun t' ht' => ⟨t', ht', rfl, le_refl _⟩
  | revealSolution => exact fun t' ht' => ⟨t', ht', rfl, le_refl _⟩
  | nextRound => exact fun t' ht' => ⟨t', ht', rfl, le_refl _⟩
  | togglePause => exact fun t' ht' => ⟨t', ht', rfl, le_refl _⟩
  | resetGame => exact fun t' ht' => absurd ht' (List.not_mem_nil _)

/-- Witness for C6 (amended): adding 2 points to the score-1 team yields a
team that dominates its pre-transition version. -/
theorem step_scores_nondecreasing_witness :
    ScorePreserving (Action.updateTeamScore "t1" 2)
    ∧ ∃ t ∈ oneTeamState.teams,
        t.id = ({ teamA with score := 3 } : Team).id
        ∧ t.score ≤ ({ teamA with score := 3 } : Team).score := by
  refine ⟨(by decide : (0 : Int) ≤ 2), ?_⟩
  exact step_scores_nondecreasing oneTeamState (.updateTeamScore "t1" 2)
    (by decide : (0 : Int) ≤ 2) { teamA with score := 3 } (by decide)

/-- C7 (counterexample): the linkage between `currentExample` and
`roundStartTime` is not an invariant of the full machine — one `hydrate`
whose partial payload names `currentExample` but not `roundStartTime`
reaches a state with an example set and no round start time. -/
theorem hydrate_breaks_linkage :
    Reachable hydratedExampleState
    ∧ hydratedExampleState.currentExample = some ex0
    ∧ hydratedExampleState.roundStartTime = none :=
  ⟨ReachableFrom.next ReachableFrom.init trivial, rfl, rfl⟩

theorem step_preserves_linkage {s : GameState} {a : Action} (ha : NonHydrate a)
    (ih : s.roundStartTime.isSome = s.currentExample.isSome) :
    (step s a).roundStartTime.isSome = (step s a).currentExample.isSome := by
  cases a with
  | setTeams ts => exact ih
  | updateTeamScore teamId points => exact ih
  | setCurrentExample payload now => rcases payload with _ | e <;> rfl
  | setSelectedCategory c => exact ih
  | setSelectedPatternCount n => exact ih
  | revealSolution => exact ih
  | awardPoint teamId now =>
      show (awardPoint s teamId now).roundStartTime.isSome =
        (awardPoint s teamId now).currentExample.isSome
      rw [awardPoint_roundStartTime, awardPoint_currentExample]
      exact ih
  | nextRound => rfl
  | togglePause => exact ih
  | resetGame => rfl
  | hydrate p => exact False.elim ha

/-- C7 (amended): in every state reachable without the `hydrate` transition,
`roundStartTime` is present exactly when `currentExample` is present (so it
is non-none whenever an example is set, and none whenever no example is
set); an arbitrary `hydrate` payload can break this linkage. -/
theorem linked_roundStartTime (s : GameState) (h : ReachableFrom NonHydrate s) :
    s.roundStartTime.isSome = s.currentExample.isSome := by
  induction h with
  | init => rfl
  | next hs ha ih => exact step_preserves_linkage ha ih

/-- Witness for C7 (amended): the state reached by setting an example at
time 500 is reachable without `hydrate` and satisfies the linkage. -/
theorem linked_roundStartTime_witness :
    ReachableFrom NonHydrate (step initialState (.setCurrentExample (some ex0) 500))
    ∧ (step initialState (.setCurrentExample (some ex0) 500)).roundStartTime.isSome =
        (step initialState (.setCurrentExample (some ex0) 500)).currentExample.isSome :=
  ⟨ReachableFrom.next ReachableFrom.init trivial,
   linked_roundStartTime _ (ReachableFrom.next ReachableFrom.init trivial)⟩

/-- C10: `setCurrentExample none` only clears `currentExample` and
`roundStartTime`, leaving `solutionRevealed`, `isPaused` and every other
field unchanged; consequently a state with `solutionRevealed = true` and no
current example is reachable by `revealSolution` followed by
`setCurrentExample none`. -/
theorem setCurrentExample_none_frame (s : GameState) (now : Int) :
    setCurrentExample s none now =
      { s with currentExample := none, roundStartTime := none }
    ∧ Reachable revealedNoExampleState
    ∧ revealedNoExampleState.solutionRevealed = true
    ∧ revealedNoExampleState.currentExample = none := by
  refine ⟨rfl, ?_, rfl, rfl⟩
  exact ReachableFrom.next (ReachableFrom.next ReachableFrom.init trivial) trivial

end GameCore
